import Mathlib

/-!
Verification development for the HR Policy Generator pipeline (src/app.py).

The program is a single-file wizard that discovers sources with a search
service (search_tavily, lines 256-282), extracts page text with a headless
browser (extract_content_selenium, lines 284-328), aggregates provenance
tagged blocks (main, lines 562-580), and synthesizes a policy document
with a generative-text service (generate_policy_with_gemini, lines
330-372), releasing the browser session in a finally clause (lines
608-611, cleanup at 374-380).

The embedding below models the external world (search service, pages,
driver setup, generation service) as an explicit environment record and
translates the control flow of the Python source into total Lean
functions.  A Python exception that escapes a function boundary is
modelled with Except; exceptions that the source catches are modelled by
the branch the handler takes.  Informational st.info and st.success
display calls that no property depends on are either logged as events or
omitted; every st.error and st.warning that a property mentions is logged
as an event.
-/

/-- ASCII whitespace as matched by the Python regex class backslash-s and
stripped by str.strip (space, tab, newline, carriage return, vertical tab,
form feed).  Unicode whitespace beyond ASCII is not modelled; every
property proved below is insensitive to the exact character set. -/
def pyIsSpace (c : Char) : Bool :=
  decide (c = ' ' ∨ c = '\t' ∨ c = '\n' ∨ c = '\r' ∨ c = '\x0b' ∨ c = '\x0c')

/-- Scanner for the regex substitution at src/app.py line 323: the flag
records whether the scanner is inside a whitespace run whose single
replacement space was already emitted. -/
def collapseGo : Bool → List Char → List Char
  | _, [] => []
  | true, c :: cs =>
    if pyIsSpace c then collapseGo true cs else c :: collapseGo false cs
  | false, c :: cs =>
    if pyIsSpace c then ' ' :: collapseGo true cs else c :: collapseGo false cs

/-- Model of the regex substitution at src/app.py line 323,
re.sub applied with pattern backslash-s-plus and replacement a single
space: each maximal run of whitespace characters is replaced by one
space. -/
def collapseWs (l : List Char) : List Char := collapseGo false l

/-- Model of Python str.strip() at src/app.py line 323: remove leading and
trailing whitespace. -/
def pyStrip (l : List Char) : List Char :=
  ((l.dropWhile pyIsSpace).reverse.dropWhile pyIsSpace).reverse

/-- Model of src/app.py lines 322-324: collapse whitespace runs, strip the
ends, and truncate to max_chars code points
(content[:max_chars] if len(content) > max_chars else content). -/
def clean_and_limit (content : String) (max_chars : Nat) : String :=
  let cleaned : List Char := pyStrip (collapseWs content.data)
  if max_chars < cleaned.length then ⟨cleaned.take max_chars⟩ else ⟨cleaned⟩

/-- No two adjacent characters of the list are both whitespace. -/
def noWsRunB : List Char → Bool
  | [] => true
  | [_] => true
  | a :: b :: l => (!(pyIsSpace a && pyIsSpace b)) && noWsRunB (b :: l)

theorem noWsRunB_tail (a : Char) (l : List Char) (h : noWsRunB (a :: l) = true) :
    noWsRunB l = true := by
  cases l with
  | nil => rfl
  | cons b t =>
    have h2 := h
    simp only [noWsRunB, Bool.and_eq_true] at h2
    exact h2.2

theorem noWsRunB_append_right (xs ys : List Char) (h : noWsRunB (xs ++ ys) = true) :
    noWsRunB ys = true := by
  induction xs with
  | nil => exact h
  | cons a xs ih =>
    rw [List.cons_append] at h
    exact ih (noWsRunB_tail _ _ h)

theorem noWsRunB_append_left (xs ys : List Char) (h : noWsRunB (xs ++ ys) = true) :
    noWsRunB xs = true := by
  induction xs with
  | nil => rfl
  | cons a xs ih =>
    cases xs with
    | nil => rfl
    | cons b xs2 =>
      rw [List.cons_append, List.cons_append] at h
      simp only [noWsRunB, Bool.and_eq_true] at h ⊢
      refine ⟨h.1, ?_⟩
      have := ih (by rw [List.cons_append]; exact h.2)
      exact this

theorem noWsRunB_infix (l1 l2 : List Char) (h : l1 <:+: l2)
    (h2 : noWsRunB l2 = true) : noWsRunB l1 = true := by
  obtain ⟨s, t, rfl⟩ := h
  have hr : noWsRunB (l1 ++ t) = true :=
    noWsRunB_append_right s (l1 ++ t) (by rwa [← List.append_assoc])
  exact noWsRunB_append_left _ _ hr

theorem dropWhile_head_false (p : Char → Bool) (l : List Char) (c : Char)
    (h : (l.dropWhile p).head? = some c) : p c = false := by
  have h2 := List.head?_dropWhile_not p l
  rw [h] at h2
  exact h2

/-- After the replacement space was emitted, the next emitted character is
not whitespace. -/
theorem collapseGo_true_head : ∀ (l : List Char) (c : Char),
    (collapseGo true l).head? = some c → pyIsSpace c = false := by
  intro l
  induction l with
  | nil => intro c h; simp [collapseGo] at h
  | cons a as ih =>
    intro c h
    by_cases ha : pyIsSpace a = true
    · rw [collapseGo, if_pos ha] at h
      exact ih c h
    · rw [collapseGo, if_neg ha] at h
      have h2 : a = c := by simpa using h
      simp only [Bool.not_eq_true] at ha
      rw [← h2]
      exact ha

theorem noWsRunB_cons (a : Char) (X : List Char)
    (h1 : ∀ d, X.head? = some d → (!(pyIsSpace a && pyIsSpace d)) = true)
    (h2 : noWsRunB X = true) : noWsRunB (a :: X) = true := by
  cases X with
  | nil => rfl
  | cons d ds =>
    simp only [noWsRunB, Bool.and_eq_true]
    exact ⟨h1 d rfl, h2⟩

theorem noWsRunB_collapseGo : ∀ (l : List Char) (b : Bool),
    noWsRunB (collapseGo b l) = true := by
  intro l
  induction l with
  | nil => intro b; cases b <;> rfl
  | cons c cs ih =>
    intro b
    cases b
    · by_cases hc : pyIsSpace c = true
      · rw [collapseGo, if_pos hc]
        refine noWsRunB_cons ' ' _ ?_ (ih true)
        intro d hd
        rw [collapseGo_true_head cs d hd]
        simp
      · rw [collapseGo, if_neg hc]
        refine noWsRunB_cons c _ ?_ (ih false)
        intro d hd
        simp only [Bool.not_eq_true] at hc
        rw [hc]
        simp
    · by_cases hc : pyIsSpace c = true
      · rw [collapseGo, if_pos hc]
        exact ih true
      · rw [collapseGo, if_neg hc]
        refine noWsRunB_cons c _ ?_ (ih false)
        intro d hd
        simp only [Bool.not_eq_true] at hc
        rw [hc]
        simp

/-- The output of collapseWs never has two adjacent whitespace characters. -/
theorem noWsRunB_collapseWs (l : List Char) : noWsRunB (collapseWs l) = true :=
  noWsRunB_collapseGo l false

/-- pyStrip produces a prefix of the result of dropping leading
whitespace. -/
theorem pyStrip_prefix_dropWhile (l : List Char) :
    pyStrip l <+: l.dropWhile pyIsSpace := by
  unfold pyStrip
  have h : ((l.dropWhile pyIsSpace).reverse.dropWhile pyIsSpace)
      <:+ (l.dropWhile pyIsSpace).reverse := List.dropWhile_suffix _
  have h2 := List.reverse_prefix.mpr h
  rwa [List.reverse_reverse] at h2

/-- pyStrip produces a contiguous infix of its input. -/
theorem pyStrip_infix (l : List Char) : pyStrip l <:+: l := by
  obtain ⟨t, ht⟩ := pyStrip_prefix_dropWhile l
  obtain ⟨s, hs⟩ : l.dropWhile pyIsSpace <:+ l := List.dropWhile_suffix _
  exact ⟨s, t, by rw [List.append_assoc, ht, hs]⟩

theorem pyStrip_getLast (l : List Char) (c : Char)
    (h : (pyStrip l).getLast? = some c) : pyIsSpace c = false := by
  unfold pyStrip at h
  rw [List.getLast?_reverse] at h
  exact dropWhile_head_false _ _ _ h

theorem pyStrip_head (l : List Char) (c : Char)
    (h : (pyStrip l).head? = some c) : pyIsSpace c = false := by
  obtain ⟨t, ht⟩ := pyStrip_prefix_dropWhile l
  cases hp : pyStrip l with
  | nil => rw [hp] at h; exact absurd h (by simp)
  | cons d ds =>
    rw [hp] at h
    have hd : d = c := by injection h
    apply dropWhile_head_false pyIsSpace l c
    rw [← ht, hp, hd]
    rfl

theorem clean_and_limit_data (content : String) (max_chars : Nat) :
    (clean_and_limit content max_chars).data
      = (pyStrip (collapseWs content.data)).take max_chars := by
  unfold clean_and_limit
  by_cases h : max_chars < (pyStrip (collapseWs content.data)).length
  · rw [if_pos h]
  · rw [if_neg h]
    have : (pyStrip (collapseWs content.data)).length ≤ max_chars := by omega
    rw [List.take_of_length_le this]

/-- The cleaned text is at most max_chars long, has no run of two
whitespace characters, never starts with whitespace, and, whenever its
length is strictly below max_chars (so no truncation happened), never
ends with whitespace. -/
theorem clean_and_limit_spec (content : String) (max_chars : Nat) :
    (clean_and_limit content max_chars).length ≤ max_chars
    ∧ noWsRunB (clean_and_limit content max_chars).data = true
    ∧ (∀ c, (clean_and_limit content max_chars).data.head? = some c →
        pyIsSpace c = false)
    ∧ ((clean_and_limit content max_chars).length < max_chars →
        ∀ c, (clean_and_limit content max_chars).data.getLast? = some c →
          pyIsSpace c = false) := by
  have hdata := clean_and_limit_data content max_chars
  have hlen : (clean_and_limit content max_chars).length
      = (clean_and_limit content max_chars).data.length := rfl
  refine ⟨?_, ?_, ?_, ?_⟩
  · rw [hlen, hdata, List.length_take]
    omega
  · apply noWsRunB_infix _ (collapseWs content.data)
    · rw [hdata]
      obtain ⟨t, ht⟩ := List.take_prefix max_chars (pyStrip (collapseWs content.data))
      obtain ⟨s, t2, hst⟩ := pyStrip_infix (collapseWs content.data)
      refine ⟨s, t ++ t2, ?_⟩
      have hx : s ++ List.take max_chars (pyStrip (collapseWs content.data)) ++ (t ++ t2)
          = s ++ (List.take max_chars (pyStrip (collapseWs content.data)) ++ t) ++ t2 := by
        simp [List.append_assoc]
      rw [hx, ht, hst]
    · exact noWsRunB_collapseWs content.data
  · intro c hc
    rw [hdata] at hc
    obtain ⟨t, ht⟩ := List.take_prefix max_chars (pyStrip (collapseWs content.data))
    apply pyStrip_head (collapseWs content.data) c
    cases hp : (pyStrip (collapseWs content.data)).take max_chars with
    | nil => rw [hp] at hc; exact absurd hc (by simp)
    | cons d ds =>
      rw [hp] at hc
      have hd : d = c := by injection hc
      rw [← ht, hp, hd]
      rfl
  · intro hlt c hc
    rw [hlen, hdata, List.length_take] at hlt
    have hfull : (pyStrip (collapseWs content.data)).length < max_chars := by
      omega
    rw [hdata, List.take_of_length_le (by omega)] at hc
    exact pyStrip_getLast _ _ hc

/-- A search result record as consumed by the pipeline.  The source reads
the dictionary fields title and url with result.get, so each is optional
(absent models a dictionary without that key). -/
structure SearchResult where
  title : Option String := none
  url : Option String := none
deriving DecidableEq

/-- Python truthiness test `not key` for a credential loaded with
os.getenv: the key is falsy when it is absent (None) or the empty
string. -/
def pyFalsyKey (k : Option String) : Bool := decide (k.getD "" = "")

/-- The outcome of find_elements for one CSS selector on the loaded page
(after the unwanted script, style, nav, header, footer and aside elements
were removed, src/app.py lines 296-301): either the call raises (caught by
the bare except at line 316) or it returns the list of matched elements,
each represented by its textContent attribute (which Python may report as
None, modelled by Option). -/
inductive FindOutcome where
  | findErr
  | found (elems : List (Option String))

/-- A loaded page: the selector query results and the textContent of the
body element (none models a missing body element or a None attribute,
either of which makes the source raise inside the try and return ""). -/
structure Page where
  find : String → FindOutcome
  body : Option String

/-- What navigating to a URL does: the navigation or the 10-unit wait for
the body element fails (TimeoutException, WebDriverException, ...), or the
page loads. -/
inductive PageOutcome where
  | navError
  | waitTimeout
  | page (p : Page)

/-- A JSON value returned by response.json() at src/app.py line 279: an
object (whose results key, when present, is modelled as a list of search
results), or a well-formed JSON value that is not an object (list, string,
number, ...), on which .get raises AttributeError. -/
inductive JsonVal where
  | jobj (results : Option (List SearchResult))
  | jnonobj

/-- Behaviour of the one HTTP POST of search_tavily: transport failure,
HTTP error status (raise_for_status), a body that is not valid JSON
(requests raises its JSONDecodeError, a RequestException subclass), or a
parsed JSON value. -/
inductive SearchOutcome where
  | transportErr
  | httpErr
  | badJson
  | respJson (v : JsonVal)

/-- Behaviour of the generative-text service call: the configure or
generate_content or response.text step raises, or a text is returned. -/
inductive GenOutcome where
  | genRaise
  | genOk (text : String)

/-- Observable actions of one run: service calls, st.error and st.warning
diagnostics, and the session cleanup, in program order. -/
inductive Event where
  | errNoTavilyKey
  | tavilySvcCall (query : String)
  | errSearchFailed
  | errNoSources
  | foundSources (n : Nat)
  | extractCall (url : String)
  | warnExtract (url : String)
  | errSetup
  | errNoExtract
  | successExtract (n : Nat)
  | genInvoked
  | errNoGeminiKey
  | geminiSvcCall (prompt : String)
  | errGemini
  | successGen
  | rerunCalled
  | errGenFailedMain
  | errGeneric
  | cleanupCall
  | quitCall
deriving DecidableEq

/-- The external world of one run: credentials, the search service, the
pages behind URLs, whether the n-th attempt of setup_selenium succeeds,
the generation service, and the strftime month-year string at the time
the prompt is built. -/
structure Env where
  tavilyKey : Option String
  geminiKey : Option String
  search : SearchOutcome
  pages : String → PageOutcome
  setupOk : Nat → Bool
  gen : GenOutcome
  monthYear : String

/-- Browser-session state of the generator: whether self.driver is set,
and how many setup attempts have been made so far. -/
structure Drv where
  present : Bool
  attempts : Nat
deriving DecidableEq

/-- The enhanced query built at src/app.py line 263. -/
def enhanced_query (query location : String) : String :=
  query ++ " " ++ location ++
    " official government policy law regulation site:gov OR site:legislation OR site:official"

/-- Model of search_tavily (src/app.py lines 256-282).  Returns the
Except-modelled outcome (error means a Python exception escapes the
function) together with the logged diagnostics.  A falsy key returns []
without calling the service; RequestException subclasses (transport, HTTP
status, JSON decode) are caught and degrade to []; response.json().get
raises AttributeError when the parsed body is not an object, and that
exception is not a RequestException, so it escapes. -/
def search_tavily (env : Env) (query location : String) :
    Except Unit (List SearchResult) × List Event :=
  if pyFalsyKey env.tavilyKey then (.ok [], [.errNoTavilyKey])
  else
    match env.search with
    | .transportErr =>
      (.ok [], [.tavilySvcCall (enhanced_query query location), .errSearchFailed])
    | .httpErr =>
      (.ok [], [.tavilySvcCall (enhanced_query query location), .errSearchFailed])
    | .badJson =>
      (.ok [], [.tavilySvcCall (enhanced_query query location), .errSearchFailed])
    | .respJson (.jobj results) =>
      (.ok (results.getD []), [.tavilySvcCall (enhanced_query query location)])
    | .respJson .jnonobj =>
      (.error (), [.tavilySvcCall (enhanced_query query location)])

/-- The prioritized content selectors of src/app.py lines 304-307. -/
def content_selectors : List String :=
  ["main", "article", ".content", ".main-content",
   "#content", "#main", ".policy-content", ".legal-content"]

/-- The selector loop of src/app.py lines 310-317: try each selector in
order; on a raised find_elements continue; when a selector returns at
least one element take the textContent of the first element and stop. -/
def selLoop (p : Page) : List String → Option (Option String)
  | [] => none
  | s :: rest =>
    match p.find s with
    | .found (e :: _) => some e
    | .found [] => selLoop p rest
    | .findErr => selLoop p rest

/-- Lines 309-320: content starts as ""; after the selector loop,
`if not content` (content still "", or the matched textContent was None or
empty) falls back to the textContent of the body element.  The result none
represents the Python value None reaching re.sub, which raises TypeError
into the enclosing except. -/
def selectContent (p : Page) : Option String :=
  match selLoop p content_selectors with
  | some t => if t.getD "" = "" then p.body else t
  | none => p.body

/-- The try block of extract_content_selenium (src/app.py lines 290-328)
once a driver d exists: navigate and extract, and catch every exception
into a warning plus "". -/
def extractLoaded (env : Env) (d : Drv) (url : String) (max_chars : Nat) :
    String × Drv × List Event :=
  match env.pages url with
  | .navError => ("", d, [.warnExtract url])
  | .waitTimeout => ("", d, [.warnExtract url])
  | .page p =>
    match selectContent p with
    | none => ("", d, [.warnExtract url])
    | some content => (clean_and_limit content max_chars, d, [])

/-- Model of extract_content_selenium (src/app.py lines 284-328) given a
driver state: set up the driver if absent (returning "" when setup fails,
lines 286-288), then run the guarded extraction.  The informational
messages of setup_selenium are not logged; its error path is the errSetup
event. -/
def extract_content_selenium (env : Env) (d : Drv) (url : String)
    (max_chars : Nat) : String × Drv × List Event :=
  if d.present then extractLoaded env d url max_chars
  else if env.setupOk d.attempts then
    extractLoaded env ⟨true, d.attempts + 1⟩ url max_chars
  else ("", ⟨false, d.attempts + 1⟩, [.errSetup])

/-- Failure predicate for one extraction attempt: driver setup fails, the
navigation or readiness wait fails, or the selected content is the Python
None value. -/
def extractFails (env : Env) (d : Drv) (url : String) : Bool :=
  if d.present || env.setupOk d.attempts then
    match env.pages url with
    | .navError => true
    | .waitTimeout => true
    | .page p => (selectContent p).isNone
  else true

/-- The provenance block appended for one successful extraction
(src/app.py line 576). -/
def sourceBlock (title url content : String) : String :=
  "\n\n--- SOURCE: " ++ title ++ " (" ++ url ++ ") ---\n" ++ content

/-- State of the extraction loop of main (src/app.py lines 562-580):
driver state, all_extracted_data, successful_extractions, and the logged
events. -/
structure LoopSt where
  drv : Drv
  agg : String
  cnt : Nat
  evs : List Event

/-- One iteration of the loop at src/app.py lines 569-580: skip a result
whose url key is missing or empty; otherwise extract (5000 default
max_chars) and, exactly when the content is non-empty, append a provenance
block and count the success.  The driver state and the event log advance
in either case, as in the source. -/
def loopBody (env : Env) (s : LoopSt) (result : SearchResult) : LoopSt :=
  if result.url.getD "" = "" then s
  else
    { drv := (extract_content_selenium env s.drv (result.url.getD "") 5000).2.1,
      agg :=
        if (extract_content_selenium env s.drv (result.url.getD "") 5000).1 = ""
        then s.agg
        else s.agg ++ sourceBlock (result.title.getD "Unknown") (result.url.getD "")
          (extract_content_selenium env s.drv (result.url.getD "") 5000).1,
      cnt :=
        if (extract_content_selenium env s.drv (result.url.getD "") 5000).1 = ""
        then s.cnt else s.cnt + 1,
      evs := s.evs ++ [.extractCall (result.url.getD "")]
        ++ (extract_content_selenium env s.drv (result.url.getD "") 5000).2.2 }

/-- The extraction loop over a result list. -/
def runLoop (env : Env) (s : LoopSt) (results : List SearchResult) : LoopSt :=
  results.foldl (loopBody env) s

/-- One step of the aggregation of src/app.py lines 569-580 at the
abstraction level of a (search result, extracted text) pair: skip an entry
without a url, skip an entry whose extracted text is empty, otherwise
append a provenance block and count the success. -/
def aggStep (acc : String × Nat) (p : SearchResult × String) : String × Nat :=
  if p.1.url.getD "" = "" then acc
  else if p.2 = "" then acc
  else (acc.1 ++ sourceBlock (p.1.title.getD "Unknown") (p.1.url.getD "") p.2,
        acc.2 + 1)

/-- The aggregation of src/app.py lines 562-580 over the top 5 results
with their extracted texts: all_extracted_data and
successful_extractions. -/
def aggregate (pairs : List (SearchResult × String)) : String × Nat :=
  (pairs.take 5).foldl aggStep ("", 0)

/-- The provenance block a kept pair contributes. -/
def blockOf (p : SearchResult × String) : String :=
  sourceBlock (p.1.title.getD "Unknown") (p.1.url.getD "") p.2

/-- Literal pieces of the prompt f-string (src/app.py lines 340-365):
the eight numbered drafting requirements. -/
def req1 : String := "1. Create a professional, legally compliant "

def req2 : String := "2. Include all mandatory requirements specific to "

def req3 : String := "3. Structure the policy with clear sections and subsections"

def req4 : String := "4. Include purpose, scope, definitions, procedures, and compliance requirements"

def req5 : String := "5. Add relevant legal references and citations where applicable"

def req6 : String := "6. Ensure the language is clear, professional, and actionable"

def req7 : String := "7. Include effective date and review requirements"

def req8 : String := "8. Add any location-specific cultural or legal considerations"

/-- The prompt f-string of src/app.py lines 340-365, written as the
concatenation of its literal segments and interpolation slots (the
monthYear argument stands for datetime.now().strftime applied to the
month-name-plus-year format at build time).  Concatenating the pieces
reproduces the Python string byte for byte. -/
def geminiPrompt (policy_type location extracted_data monthYear : String) : String :=
  "\n            As an expert HR policy consultant, create a comprehensive "
  ++ policy_type ++ " policy for " ++ location
  ++ ".\n            \n            Use the following official legal and regulatory information as your primary source:\n            \n            "
  ++ extracted_data
  ++ "\n            \n            Requirements:\n            "
  ++ req1 ++ policy_type ++ " policy\n            "
  ++ req2 ++ location ++ "\n            "
  ++ req3 ++ "\n            "
  ++ req4 ++ "\n            "
  ++ req5 ++ "\n            "
  ++ req6 ++ "\n            "
  ++ req7 ++ "\n            "
  ++ req8
  ++ "\n            \n            Format the policy as a complete, ready-to-implement document with:\n            - Policy title and version\n            - Effective date\n            - Table of contents\n            - All required sections\n            - Appendices if needed\n            \n            Make sure the policy is current as of "
  ++ monthYear
  ++ " and complies with the latest regulations.\n            "

/-- Model of generate_policy_with_gemini (src/app.py lines 330-372): a
falsy key reports an error and returns "" without touching the service;
any exception from configure, generate_content or response.text is caught
into an error plus ""; otherwise the response text is returned
unmodified. -/
def generate_policy_with_gemini (env : Env) (policy_type location extracted_data : String) :
    String × List Event :=
  if pyFalsyKey env.geminiKey then ("", [.errNoGeminiKey])
  else
    match env.gen with
    | .genRaise =>
      ("", [.geminiSvcCall (geminiPrompt policy_type location extracted_data env.monthYear),
            .errGemini])
    | .genOk t =>
      (t, [.geminiSvcCall (geminiPrompt policy_type location extracted_data env.monthYear)])

/-- The wizard session state touched by the research step. -/
structure Session where
  step : Nat
  policy_type : String
  location : String
  generated_policy : String
deriving DecidableEq

/-- The events emitted by HRPolicyGenerator.cleanup (src/app.py lines
374-380): always invoked; quit is called exactly when a driver exists
(its own exceptions are swallowed). -/
def cleanupEvents (driverCreated : Bool) : List Event :=
  if driverCreated then [.cleanupCall, .quitCall] else [.cleanupCall]

/-- The tail of the research run after the extraction loop (src/app.py
lines 585-606), given the accumulated events and the loop state: halt on
zero successful extractions, otherwise generate, and either store the
policy and advance to step 4 (the st.rerun call then ends the block) or
report the failure and leave the session unchanged. -/
def coreAfterLoop (env : Env) (s0 : Session) (evs2 : List Event) (ls : LoopSt) :
    Session × List Event × Bool :=
  if ls.cnt = 0 then (s0, evs2 ++ [.errNoExtract], ls.drv.present)
  else
    if (generate_policy_with_gemini env s0.policy_type s0.location ls.agg).1 = "" then
      (s0,
       evs2 ++ [.successExtract ls.cnt, .genInvoked]
         ++ (generate_policy_with_gemini env s0.policy_type s0.location ls.agg).2
         ++ [.errGenFailedMain],
       ls.drv.present)
    else
      ({ s0 with
          generated_policy := (generate_policy_with_gemini env s0.policy_type s0.location ls.agg).1,
          step := 4 },
       evs2 ++ [.successExtract ls.cnt, .genInvoked]
         ++ (generate_policy_with_gemini env s0.policy_type s0.location ls.agg).2
         ++ [.successGen, .rerunCalled],
       ls.drv.present)

/-- The try/except body of the research run (src/app.py lines 544-609),
before the finally clause: search, halt on zero sources, extract over the
top five results, then the post-loop tail.  An exception escaping
search_tavily is caught by the generic except at line 608.  Returns the
updated session, the events, and whether a browser session was
created. -/
def researchRunCore (env : Env) (s0 : Session) : Session × List Event × Bool :=
  match search_tavily env s0.policy_type s0.location with
  | (.error _, evs) => (s0, evs ++ [.errGeneric], false)
  | (.ok search_results, evs) =>
    if search_results.isEmpty then (s0, evs ++ [.errNoSources], false)
    else
      coreAfterLoop env s0
        (evs ++ [.foundSources search_results.length]
          ++ (runLoop env ⟨⟨false, 0⟩, "", 0, []⟩ (search_results.take 5)).evs)
        (runLoop env ⟨⟨false, 0⟩, "", 0, []⟩ (search_results.take 5))

/-- The result of one research run. -/
structure RunOut where
  session : Session
  events : List Event
  driverCreated : Bool

/-- The full research run (src/app.py lines 543-611): the try/except body
followed unconditionally by the finally clause invoking cleanup, on
normal completion, on an early return and on an exception alike. -/
def researchRun (env : Env) (s0 : Session) : RunOut :=
  ⟨(researchRunCore env s0).1,
   (researchRunCore env s0).2.1 ++ cleanupEvents (researchRunCore env s0).2.2,
   (researchRunCore env s0).2.2⟩

theorem join_foldl (l : List String) (a : String) :
    l.foldl (fun r s => r ++ s) a = a ++ String.join l := by
  induction l generalizing a with
  | nil => simp [String.join]
  | cons b l ih =>
    have hj : String.join (b :: l) = b ++ String.join l := by
      show (b :: l).foldl (fun r s => r ++ s) "" = b ++ String.join l
      rw [List.foldl_cons, String.empty_append]
      exact ih b
    rw [List.foldl_cons, ih (a ++ b), hj, String.append_assoc]

theorem aggStep_skip_url (acc : String × Nat) (p : SearchResult × String)
    (hu : p.1.url.getD "" = "") : aggStep acc p = acc := by
  simp [aggStep, hu]

theorem aggStep_skip_empty (acc : String × Nat) (p : SearchResult × String)
    (he : p.2 = "") : aggStep acc p = acc := by
  simp [aggStep, he]

theorem aggStep_keep (acc : String × Nat) (p : SearchResult × String)
    (hu : ¬ p.1.url.getD "" = "") (he : ¬ p.2 = "") :
    aggStep acc p = (acc.1 ++ blockOf p, acc.2 + 1) := by
  simp [aggStep, blockOf, sourceBlock, hu, he]

theorem aggregate_foldl (ps : List (SearchResult × String)) (a : String) (n : Nat)
    (h : ∀ p ∈ ps, p.1.url.getD "" = "" → p.2 = "") :
    ps.foldl aggStep (a, n)
      = (a ++ String.join ((ps.filter fun p => decide (¬ p.2 = "")).map blockOf),
         n + (ps.filter fun p => decide (¬ p.2 = "")).length) := by
  induction ps generalizing a n with
  | nil => simp [String.join]
  | cons p ps ih =>
    rw [List.foldl_cons]
    by_cases he : p.2 = ""
    · rw [aggStep_skip_empty (a, n) p he]
      rw [ih a n (fun q hq => h q (List.mem_cons_of_mem p hq))]
      rw [List.filter_cons_of_neg (by simp [he])]
    · have hu : ¬ p.1.url.getD "" = "" := fun hu2 => he (h p (List.mem_cons_self p ps) hu2)
      rw [aggStep_keep (a, n) p hu he]
      rw [ih (a ++ blockOf p) (n + 1) (fun q hq => h q (List.mem_cons_of_mem p hq))]
      rw [List.filter_cons_of_pos (by simp [he])]
      have hj : String.join (blockOf p :: (ps.filter fun q => decide (¬ q.2 = "")).map blockOf)
          = blockOf p ++ String.join ((ps.filter fun q => decide (¬ q.2 = "")).map blockOf) := by
        show List.foldl (fun r s => r ++ s) "" _ = _
        rw [List.foldl_cons, String.empty_append]
        exact join_foldl _ _
      simp only [Prod.mk.injEq, List.map_cons, List.length_cons]
      refine ⟨?_, by omega⟩
      rw [hj, String.append_assoc]

theorem extractLoaded_events (env : Env) (d : Drv) (url : String) (m : Nat) :
    (extractLoaded env d url m).2.2 = [.warnExtract url]
    ∨ (extractLoaded env d url m).2.2 = [] := by
  unfold extractLoaded
  split
  · exact .inl rfl
  · exact .inl rfl
  · split
    · exact .inl rfl
    · exact .inr rfl

theorem extract_events (env : Env) (d : Drv) (url : String) (m : Nat) :
    (extract_content_selenium env d url m).2.2 = [.warnExtract url]
    ∨ (extract_content_selenium env d url m).2.2 = [.errSetup]
    ∨ (extract_content_selenium env d url m).2.2 = [] := by
  unfold extract_content_selenium
  split
  · rcases extractLoaded_events env d url m with h | h <;> rw [h]
    · exact .inl rfl
    · exact .inr (.inr rfl)
  · split
    · rcases extractLoaded_events env ⟨true, d.attempts + 1⟩ url m with h | h <;> rw [h]
      · exact .inl rfl
      · exact .inr (.inr rfl)
    · exact .inr (.inl rfl)

/-- The urls passed to the extraction operation, read off an event log. -/
def extractCallsOf (evs : List Event) : List String :=
  evs.filterMap fun e => match e with | .extractCall u => some u | _ => none

/-- The url the loop would pass to the extractor for one search result:
none when the url key is missing or empty. -/
def urlOpt (r : SearchResult) : Option String :=
  if r.url.getD "" = "" then none else some (r.url.getD "")

theorem extractCallsOf_append (a b : List Event) :
    extractCallsOf (a ++ b) = extractCallsOf a ++ extractCallsOf b :=
  List.filterMap_append a b _

theorem extractCallsOf_extract (env : Env) (d : Drv) (url : String) (m : Nat) :
    extractCallsOf (extract_content_selenium env d url m).2.2 = [] := by
  rcases extract_events env d url m with h | h | h <;> rw [h] <;> rfl

theorem loopBody_skip (env : Env) (s : LoopSt) (r : SearchResult)
    (hu : r.url.getD "" = "") : loopBody env s r = s := by
  unfold loopBody
  split
  · rfl
  · next h => exact absurd hu h

theorem loopBody_evs (env : Env) (s : LoopSt) (r : SearchResult)
    (hu : ¬ r.url.getD "" = "") :
    (loopBody env s r).evs = s.evs ++ [Event.extractCall (r.url.getD "")]
      ++ (extract_content_selenium env s.drv (r.url.getD "") 5000).2.2 := by
  unfold loopBody
  rw [if_neg hu]

theorem runLoop_cons (env : Env) (s : LoopSt) (r : SearchResult)
    (rs : List SearchResult) :
    runLoop env s (r :: rs) = runLoop env (loopBody env s r) rs := rfl

/-- Every search result with a non-empty url leads to exactly one
extraction attempt, in discovery order, whatever the environment does:
no failure aborts the loop, and no other extraction call happens. -/
theorem runLoop_calls (env : Env) :
    ∀ (rs : List SearchResult) (s : LoopSt),
    extractCallsOf (runLoop env s rs).evs
      = extractCallsOf s.evs ++ rs.filterMap urlOpt := by
  intro rs
  induction rs with
  | nil => intro s; simp [runLoop, extractCallsOf]
  | cons r rs ih =>
    intro s
    rw [runLoop_cons, ih, List.filterMap_cons]
    by_cases hu : r.url.getD "" = ""
    · rw [loopBody_skip env s r hu]
      rw [show urlOpt r = none from by unfold urlOpt; rw [if_pos hu]]
    · rw [loopBody_evs env s r hu, extractCallsOf_append, extractCallsOf_append,
        extractCallsOf_extract]
      rw [show urlOpt r = some (r.url.getD "") from by unfold urlOpt; rw [if_neg hu]]
      rw [show extractCallsOf [Event.extractCall (r.url.getD "")] = [r.url.getD ""] from rfl]
      simp [List.append_assoc]

theorem extract_events_mem (env : Env) (d : Drv) (url : String) (m : Nat)
    (e : Event) (h : e ∈ (extract_content_selenium env d url m).2.2) :
    e = .warnExtract url ∨ e = .errSetup := by
  rcases extract_events env d url m with h2 | h2 | h2 <;> rw [h2] at h
  · exact .inl (by simpa using h)
  · exact .inr (by simpa using h)
  · exact absurd h (by simp)

theorem runLoop_events_mem (env : Env) :
    ∀ (rs : List SearchResult) (s : LoopSt) (e : Event),
    e ∈ (runLoop env s rs).evs →
    e ∈ s.evs ∨ (∃ u, e = .extractCall u) ∨ (∃ u, e = .warnExtract u)
      ∨ e = .errSetup := by
  intro rs
  induction rs with
  | nil => intro s e h; exact .inl h
  | cons r rs ih =>
    intro s e h
    rw [runLoop_cons] at h
    rcases ih (loopBody env s r) e h with h2 | h2 | h2 | h2
    · by_cases hu : r.url.getD "" = ""
      · rw [loopBody_skip env s r hu] at h2
        exact .inl h2
      · rw [loopBody_evs env s r hu] at h2
        rcases List.mem_append.mp h2 with h3 | h3
        · rcases List.mem_append.mp h3 with h4 | h4
          · exact .inl h4
          · exact .inr (.inl ⟨r.url.getD "", by simpa using h4⟩)
        · rcases extract_events_mem env s.drv (r.url.getD "") 5000 e h3 with h4 | h4
          · exact .inr (.inr (.inl ⟨r.url.getD "", h4⟩))
          · exact .inr (.inr (.inr h4))
    · exact .inr (.inl h2)
    · exact .inr (.inr (.inl h2))
    · exact .inr (.inr (.inr h2))

theorem search_tavily_events (env : Env) (q loc : String) (e : Event)
    (h : e ∈ (search_tavily env q loc).2) :
    e = .errNoTavilyKey ∨ e = .tavilySvcCall (enhanced_query q loc)
      ∨ e = .errSearchFailed := by
  unfold search_tavily at h
  split at h
  · exact .inl (by simpa using h)
  · split at h <;> simp at h <;> tauto

theorem gen_events (env : Env) (pt loc data : String) (e : Event)
    (h : e ∈ (generate_policy_with_gemini env pt loc data).2) :
    e = .errNoGeminiKey
      ∨ e = .geminiSvcCall (geminiPrompt pt loc data env.monthYear)
      ∨ e = .errGemini := by
  unfold generate_policy_with_gemini at h
  split at h
  · exact .inl (by simpa using h)
  · split at h <;> simp at h <;> tauto

theorem core_eq_error (env : Env) (s0 : Session) (err : Unit) (evs : List Event)
    (hs : search_tavily env s0.policy_type s0.location = (.error err, evs)) :
    researchRunCore env s0 = (s0, evs ++ [.errGeneric], false) := by
  unfold researchRunCore
  rw [hs]

theorem core_eq_ok (env : Env) (s0 : Session) (rs : List SearchResult)
    (evs : List Event)
    (hs : search_tavily env s0.policy_type s0.location = (.ok rs, evs)) :
    researchRunCore env s0
      = (if rs.isEmpty then (s0, evs ++ [Event.errNoSources], false)
         else coreAfterLoop env s0
           (evs ++ [Event.foundSources rs.length]
             ++ (runLoop env ⟨⟨false, 0⟩, "", 0, []⟩ (rs.take 5)).evs)
           (runLoop env ⟨⟨false, 0⟩, "", 0, []⟩ (rs.take 5))) := by
  unfold researchRunCore
  rw [hs]

/-- Classification of the events the initial-state extraction loop can
emit. -/
theorem runLoop_init_events (env : Env) (rs : List SearchResult) (e : Event)
    (h : e ∈ (runLoop env ⟨⟨false, 0⟩, "", 0, []⟩ rs).evs) :
    (∃ u, e = .extractCall u) ∨ (∃ u, e = .warnExtract u) ∨ e = .errSetup := by
  rcases runLoop_events_mem env rs ⟨⟨false, 0⟩, "", 0, []⟩ e h with h2 | h2 | h2 | h2
  · exact absurd h2 (List.not_mem_nil e)
  · exact .inl h2
  · exact .inr (.inl h2)
  · exact .inr (.inr h2)

/-- True of every event except the two emitted by cleanup. -/
def notCleanupEvent (e : Event) : Bool :=
  match e with
  | .cleanupCall => false
  | .quitCall => false
  | _ => true

theorem coreAfterLoop_safe (env : Env) (s0 : Session) (evs2 : List Event)
    (ls : LoopSt) (h2 : ∀ x ∈ evs2, notCleanupEvent x = true) :
    ∀ e ∈ (coreAfterLoop env s0 evs2 ls).2.1, notCleanupEvent e = true := by
  intro e h
  unfold coreAfterLoop at h
  split at h
  · rcases List.mem_append.mp h with h3 | h3
    · exact h2 e h3
    · simp only [List.mem_singleton] at h3
      rw [h3]; rfl
  · split at h
    · rcases List.mem_append.mp h with h3 | h3
      · rcases List.mem_append.mp h3 with h4 | h4
        · rcases List.mem_append.mp h4 with h5 | h5
          · exact h2 e h5
          · rcases (by simpa using h5 : e = Event.successExtract ls.cnt ∨ e = Event.genInvoked)
              with h6 | h6 <;> rw [h6] <;> rfl
        · rcases gen_events env s0.policy_type s0.location ls.agg e h4 with h5 | h5 | h5
            <;> rw [h5] <;> rfl
      · simp only [List.mem_singleton] at h3
        rw [h3]; rfl
    · rcases List.mem_append.mp h with h3 | h3
      · rcases List.mem_append.mp h3 with h4 | h4
        · rcases List.mem_append.mp h4 with h5 | h5
          · exact h2 e h5
          · rcases (by simpa using h5 : e = Event.successExtract ls.cnt ∨ e = Event.genInvoked)
              with h6 | h6 <;> rw [h6] <;> rfl
        · rcases gen_events env s0.policy_type s0.location ls.agg e h4 with h5 | h5 | h5
            <;> rw [h5] <;> rfl
      · rcases (by simpa using h3 : e = Event.successGen ∨ e = Event.rerunCalled)
          with h6 | h6 <;> rw [h6] <;> rfl

/-- No event of the try/except body is a cleanup or quit event: cleanup
happens only in the finally clause. -/
theorem core_safe (env : Env) (s0 : Session) :
    ∀ e ∈ (researchRunCore env s0).2.1, notCleanupEvent e = true := by
  intro e h
  rcases hs : search_tavily env s0.policy_type s0.location with ⟨res, evs⟩
  have hsearch : ∀ x ∈ evs, notCleanupEvent x = true := by
    intro x hx
    rcases search_tavily_events env s0.policy_type s0.location x
        (by rw [hs]; exact hx) with h2 | h2 | h2 <;> rw [h2] <;> rfl
  cases res with
  | error err =>
    rw [core_eq_error env s0 err evs hs] at h
    rcases List.mem_append.mp h with h3 | h3
    · exact hsearch e h3
    · simp only [List.mem_singleton] at h3
      rw [h3]; rfl
  | ok rs =>
    rw [core_eq_ok env s0 rs evs hs] at h
    by_cases hb : rs.isEmpty = true
    · rw [if_pos hb] at h
      rcases List.mem_append.mp h with h3 | h3
      · exact hsearch e h3
      · simp only [List.mem_singleton] at h3
        rw [h3]; rfl
    · rw [if_neg hb] at h
      refine coreAfterLoop_safe env s0 _ _ ?_ e h
      intro x hx
      rcases List.mem_append.mp hx with h3 | h3
      · rcases List.mem_append.mp h3 with h4 | h4
        · exact hsearch x h4
        · simp only [List.mem_singleton] at h4
          rw [h4]; rfl
      · rcases runLoop_init_events env (rs.take 5) x h3 with ⟨u, h4⟩ | ⟨u, h4⟩ | h4
          <;> rw [h4] <;> rfl

/-- The generation stage yields the empty string: the credential is falsy,
the service raises, or the service returns "". -/
def genEmptyResult (env : Env) : Bool :=
  pyFalsyKey env.geminiKey
    || (match env.gen with | .genRaise => true | .genOk t => decide (t = ""))

theorem gen_result_empty (env : Env) (pt loc data : String)
    (h : genEmptyResult env = true) :
    (generate_policy_with_gemini env pt loc data).1 = "" := by
  unfold genEmptyResult at h
  unfold generate_policy_with_gemini
  by_cases hk : pyFalsyKey env.geminiKey = true
  · rw [if_pos hk]
  · rw [if_neg hk]
    rw [Bool.or_eq_true] at h
    rcases h with h | h
    · exact absurd h hk
    · cases hg : env.gen with
      | genRaise => rfl
      | genOk t => rw [hg] at h; simpa using h

/-- The no-leading-and-no-trailing-whitespace predicate asserted by the
specification for extractor output. -/
def noLeadTrailWs (l : List Char) : Bool :=
  (match l.head? with | some c => !pyIsSpace c | none => true)
  && (match l.getLast? with | some c => !pyIsSpace c | none => true)

theorem extractLoaded_cases (env : Env) (d : Drv) (url : String) (m : Nat) :
    (extractLoaded env d url m).1 = ""
    ∨ ∃ content, (extractLoaded env d url m).1 = clean_and_limit content m := by
  unfold extractLoaded
  split
  · exact .inl rfl
  · exact .inl rfl
  · split
    · exact .inl rfl
    · exact .inr ⟨_, rfl⟩

theorem extract_result_cases (env : Env) (d : Drv) (url : String) (m : Nat) :
    (extract_content_selenium env d url m).1 = ""
    ∨ ∃ content,
        (extract_content_selenium env d url m).1 = clean_and_limit content m := by
  unfold extract_content_selenium
  split
  · exact extractLoaded_cases env d url m
  · split
    · exact extractLoaded_cases env ⟨true, d.attempts + 1⟩ url m
    · exact .inl rfl

/-- Claim C3 (amended): for every environment, driver state, URL and
max_chars, the extractor result has length at most max_chars, contains no
run of two or more consecutive whitespace characters, and never starts
with whitespace; it never ends with whitespace either, except that when
truncation to exactly max_chars characters occurred the final character
may be the single space left by a cut whitespace boundary.  (The claim as
frozen asserts unconditional absence of trailing whitespace, which the
truncation step of src/app.py line 324 violates; see the
counterexample.) -/
theorem C3_extract_normalized (env : Env) (d : Drv) (url : String) (max_chars : Nat) :
    (extract_content_selenium env d url max_chars).1.length ≤ max_chars
    ∧ noWsRunB (extract_content_selenium env d url max_chars).1.data = true
    ∧ (∀ c, (extract_content_selenium env d url max_chars).1.data.head? = some c →
        pyIsSpace c = false)
    ∧ ((extract_content_selenium env d url max_chars).1.length < max_chars →
        ∀ c, (extract_content_selenium env d url max_chars).1.data.getLast? = some c →
          pyIsSpace c = false) := by
  rcases extract_result_cases env d url max_chars with h | ⟨content, h⟩
  · rw [h]
    refine ⟨Nat.zero_le _, rfl, ?_, ?_⟩
    · intro c hc
      exact absurd hc (by simp)
    · intro _ c hc
      exact absurd hc (by simp)
  · rw [h]
    exact clean_and_limit_spec content max_chars

/-- A page whose main element holds the text "a  b"; used as concrete
input for C3. -/
def pageAB : Page :=
  { find := fun s => if s = "main" then .found [some "a  b"] else .found [],
    body := some "" }

def envC3 : Env :=
  { tavilyKey := some "k", geminiKey := some "k",
    search := .respJson (.jobj none),
    pages := fun _ => .page pageAB,
    setupOk := fun _ => true,
    gen := .genOk "policy",
    monthYear := "October 2026" }

/-- Claim C3 counterexample: extracting the page whose main-content text
is "a  b" with max_chars 2 yields "a " (normalization gives "a b", and the
truncation of line 324 then cuts after the space), so the result ends in
whitespace, refuting the claim as stated. -/
theorem C3_counterexample :
    (extract_content_selenium envC3 ⟨false, 0⟩ "u" 2).1 = "a "
    ∧ ¬ ((extract_content_selenium envC3 ⟨false, 0⟩ "u" 2).1.length ≤ 2
        ∧ noWsRunB (extract_content_selenium envC3 ⟨false, 0⟩ "u" 2).1.data = true
        ∧ noLeadTrailWs (extract_content_selenium envC3 ⟨false, 0⟩ "u" 2).1.data = true) := by
  decide

/-- Witness for C3 at a concrete input: with max_chars 5000 there is no
truncation, and the trailing-whitespace conjunct applies. -/
theorem C3_witness :
    (extract_content_selenium envC3 ⟨false, 0⟩ "u" 5000).1.length ≤ 5000
    ∧ pyIsSpace 'b' = false :=
  ⟨(C3_extract_normalized envC3 ⟨false, 0⟩ "u" 5000).1,
   (C3_extract_normalized envC3 ⟨false, 0⟩ "u" 5000).2.2.2 (by decide) 'b' (by decide)⟩

/-- The value the selector loop takes from one selector: the textContent
of the first matched element, when at least one element matched. -/
def selHit (p : Page) (s : String) : Option (Option String) :=
  match p.find s with
  | .found (e :: _) => some e
  | .found [] => none
  | .findErr => none

theorem selLoop_eq_findSome (p : Page) :
    ∀ ss : List String, selLoop p ss = ss.findSome? (selHit p) := by
  intro ss
  induction ss with
  | nil => rfl
  | cons s rest ih =>
    cases hf : p.find s with
    | findErr => simp [selLoop, List.findSome?_cons, selHit, hf, ih]
    | found elems =>
      cases elems with
      | nil => simp [selLoop, List.findSome?_cons, selHit, hf, ih]
      | cons e es => simp [selLoop, List.findSome?_cons, selHit, hf]

/-- Claim C6 (amended): the selector loop takes the first selector, in the
fixed priority order, that matches at least one element, and uses the
textContent of its first element; however the body fallback of line 320 is
taken not only when no selector matches, but also when the matched text is
empty or the None value, because of the `if not content` truthiness test.
(The claim as frozen asserts the matched text is kept even when empty; see
the counterexample.) -/
theorem C6_selector_fallback (p : Page) (t : Option String) :
    (selLoop p content_selectors = content_selectors.findSome? (selHit p))
    ∧ (selLoop p content_selectors = none → selectContent p = p.body)
    ∧ (selLoop p content_selectors = some t → t.getD "" = "" →
        selectContent p = p.body)
    ∧ (selLoop p content_selectors = some t → ¬ t.getD "" = "" →
        selectContent p = t) := by
  refine ⟨selLoop_eq_findSome p content_selectors, ?_, ?_, ?_⟩
  · intro h
    unfold selectContent
    rw [h]
  · intro h he
    unfold selectContent
    rw [h]
    show (if t.getD "" = "" then p.body else t) = p.body
    rw [if_pos he]
  · intro h he
    unfold selectContent
    rw [h]
    show (if t.getD "" = "" then p.body else t) = t
    rw [if_neg he]

/-- A page whose main element matches with empty text while the body holds
"BODY"; used as concrete input for C6. -/
def pageEmptyMain : Page :=
  { find := fun s => if s = "main" then .found [some ""] else .found [],
    body := some "BODY" }

/-- Claim C6 counterexample: the selector main matches one element whose
text is empty, yet the code takes the body text "BODY" instead of the
matched empty text, refuting the only-if direction and the
even-if-empty parenthetical of the claim. -/
theorem C6_counterexample :
    selLoop pageEmptyMain content_selectors = some (some "")
    ∧ selectContent pageEmptyMain = some "BODY"
    ∧ ¬ selectContent pageEmptyMain = some "" := by
  decide

/-- Witness for C6 at a concrete page: the matched-but-falsy branch of the
amended claim applies and yields the body. -/
theorem C6_witness :
    selLoop pageEmptyMain content_selectors = some (some "")
    ∧ selectContent pageEmptyMain = pageEmptyMain.body :=
  ⟨by decide,
   (C6_selector_fallback pageEmptyMain (some "")).2.2.1 (by decide) (by decide)⟩

/-- A RequestException-style failure of the search call: transport error,
HTTP error status, or a body that is not valid JSON. -/
def searchCommFailure (o : SearchOutcome) : Bool :=
  match o with
  | .transportErr => true
  | .httpErr => true
  | .badJson => true
  | .respJson _ => false

/-- Claim C5 (amended): with a falsy credential the search returns an
empty list and performs no service call; on any transport, HTTP-status or
JSON-decode failure it performs the one call, reports a diagnostic and
returns an empty list; at most one service call ever happens (no retry);
and the only way an exception escapes the boundary is a successfully
parsed response body that is not a JSON object, on which the .get of
line 279 raises AttributeError past the except clause of line 280.  (The
claim as frozen asserts the operation never raises; see the
counterexample.) -/
theorem C5_search_degradation (env : Env) (q loc : String) :
    (pyFalsyKey env.tavilyKey = true →
      search_tavily env q loc = (.ok [], [.errNoTavilyKey]))
    ∧ (pyFalsyKey env.tavilyKey = false → searchCommFailure env.search = true →
      search_tavily env q loc
        = (.ok [], [.tavilySvcCall (enhanced_query q loc), .errSearchFailed]))
    ∧ (∀ e : Unit, (search_tavily env q loc).1 = .error e →
        env.search = .respJson .jnonobj)
    ∧ (search_tavily env q loc).2.countP
        (fun ev => match ev with | .tavilySvcCall _ => true | _ => false) ≤ 1 := by
  refine ⟨?_, ?_, ?_, ?_⟩
  · intro h
    unfold search_tavily
    rw [if_pos h]
  · intro h hc
    unfold search_tavily
    rw [if_neg (by simp [h])]
    cases ho : env.search with
    | transportErr => rfl
    | httpErr => rfl
    | badJson => rfl
    | respJson v =>
      rw [ho] at hc
      simp [searchCommFailure] at hc
  · intro e h
    unfold search_tavily at h
    by_cases hk : pyFalsyKey env.tavilyKey = true
    · rw [if_pos hk] at h
      exact absurd h (by simp)
    · rw [if_neg hk] at h
      cases ho : env.search with
      | transportErr => rw [ho] at h; exact absurd h (by simp)
      | httpErr => rw [ho] at h; exact absurd h (by simp)
      | badJson => rw [ho] at h; exact absurd h (by simp)
      | respJson v =>
        cases v with
        | jobj r => rw [ho] at h; exact absurd h (by simp)
        | jnonobj => rfl
  · unfold search_tavily
    by_cases hk : pyFalsyKey env.tavilyKey = true
    · rw [if_pos hk]
      decide
    · rw [if_neg hk]
      cases env.search with
      | transportErr => simp [List.countP_cons, List.countP_nil]
      | httpErr => simp [List.countP_cons, List.countP_nil]
      | badJson => simp [List.countP_cons, List.countP_nil]
      | respJson v =>
        cases v with
        | jobj r => simp [List.countP_cons, List.countP_nil]
        | jnonobj => simp [List.countP_cons, List.countP_nil]

/-- Environment whose search service responds 200 with the JSON array [],
a well-formed non-object body. -/
def envC5 : Env :=
  { tavilyKey := some "k", geminiKey := some "k",
    search := .respJson .jnonobj,
    pages := fun _ => .navError,
    setupOk := fun _ => true,
    gen := .genOk "policy",
    monthYear := "M" }

/-- Claim C5 counterexample: when the service responds with well-formed
JSON that is not an object (for example a top-level array), the expression
response.json().get raises AttributeError, which the except clause for
RequestException does not catch, so an exception escapes the
boundary. -/
theorem C5_counterexample :
    (search_tavily envC5 "q" "loc").1 = .error () := by
  rfl

/-- Environment with no credentials at all. -/
def envNoKeys : Env :=
  { tavilyKey := none, geminiKey := none,
    search := .respJson (.jobj none),
    pages := fun _ => .navError,
    setupOk := fun _ => false,
    gen := .genRaise,
    monthYear := "M" }

/-- Witness for C5: with a missing credential the search makes no call and
returns the empty list. -/
theorem C5_witness :
    pyFalsyKey envNoKeys.tavilyKey = true
    ∧ search_tavily envNoKeys "q" "loc" = (.ok [], [.errNoTavilyKey]) :=
  ⟨by decide, (C5_search_degradation envNoKeys "q" "loc").1 (by decide)⟩

theorem join_cons (a : String) (l : List String) :
    String.join (a :: l) = a ++ String.join l := by
  show List.foldl (fun r s => r ++ s) "" (a :: l) = a ++ String.join l
  rw [List.foldl_cons, String.empty_append]
  exact join_foldl l a

/-- sub occurs as a contiguous substring of s. -/
def strContains (s sub : String) : Prop := ∃ a b, s = a ++ sub ++ b

/-- The strings of the list all occur in s, in the given order, each after
the end of the previous one. -/
def containsInOrder (s : String) : List String → Prop
  | [] => True
  | p :: ps => ∃ a b, s = a ++ p ++ b ∧ containsInOrder b ps

theorem containsInOrder_prepend (x s : String) (ps : List String)
    (h : containsInOrder s ps) : containsInOrder (x ++ s) ps := by
  cases ps with
  | nil => trivial
  | cons p ps =>
    obtain ⟨a, b, heq, hrest⟩ := h
    refine ⟨x ++ a, b, ?_, hrest⟩
    rw [heq]
    simp [String.append_assoc]

theorem containsInOrder_join (parts ps : List String) (h : ps.Sublist parts) :
    containsInOrder (String.join parts) ps := by
  induction h with
  | slnil => trivial
  | cons a hsub ih =>
    rw [join_cons]
    exact containsInOrder_prepend a _ _ ih
  | cons₂ a hsub ih =>
    rw [join_cons]
    exact ⟨"", String.join _, rfl, ih⟩

theorem strContains_of_mem_parts (parts : List String) (sub : String)
    (h : sub ∈ parts) : strContains (String.join parts) sub := by
  obtain ⟨a, b, heq, _⟩ :=
    containsInOrder_join parts [sub] (List.singleton_sublist.mpr h)
  exact ⟨a, b, heq⟩

/-- The prompt of src/app.py lines 340-365 as the ordered list of its
literal segments and interpolation slots; concatenating the list
reproduces geminiPrompt. -/
def promptParts (policy_type location extracted_data monthYear : String) :
    List String :=
  ["\n            As an expert HR policy consultant, create a comprehensive ",
   policy_type, " policy for ", location,
   ".\n            \n            Use the following official legal and regulatory information as your primary source:\n            \n            ",
   extracted_data,
   "\n            \n            Requirements:\n            ",
   req1, policy_type, " policy\n            ",
   req2, location, "\n            ",
   req3, "\n            ",
   req4, "\n            ",
   req5, "\n            ",
   req6, "\n            ",
   req7, "\n            ",
   req8,
   "\n            \n            Format the policy as a complete, ready-to-implement document with:\n            - Policy title and version\n            - Effective date\n            - Table of contents\n            - All required sections\n            - Appendices if needed\n            \n            Make sure the policy is current as of ",
   monthYear,
   " and complies with the latest regulations.\n            "]

theorem geminiPrompt_eq_join (pt loc ctx my : String) :
    geminiPrompt pt loc ctx my = String.join (promptParts pt loc ctx my) := rfl

/-- Claim C7: the prompt built by the synthesizer contains the policy
type, the jurisdiction, the full aggregated context text and the
month-year anchor, and contains the eight fixed drafting requirements in
their order. -/
theorem C7_prompt_contents (pt loc ctx my : String) :
    strContains (geminiPrompt pt loc ctx my) pt
    ∧ strContains (geminiPrompt pt loc ctx my) loc
    ∧ strContains (geminiPrompt pt loc ctx my) ctx
    ∧ strContains (geminiPrompt pt loc ctx my) my
    ∧ containsInOrder (geminiPrompt pt loc ctx my)
        [req1, req2, req3, req4, req5, req6, req7, req8] := by
  rw [geminiPrompt_eq_join]
  refine ⟨?_, ?_, ?_, ?_, ?_⟩
  · exact strContains_of_mem_parts _ pt (by simp [promptParts])
  · exact strContains_of_mem_parts _ loc (by simp [promptParts])
  · exact strContains_of_mem_parts _ ctx (by simp [promptParts])
  · exact strContains_of_mem_parts _ my (by simp [promptParts])
  · apply containsInOrder_join
    unfold promptParts
    repeat first
      | exact List.nil_sublist _
      | apply List.Sublist.cons₂
      | apply List.Sublist.cons

/-- Claim C2: over every sequence of search results with their extracted
texts (results with no url never reach extraction, so their text is
empty), the aggregated context is exactly the concatenation, in discovery
order, of one provenance block per kept entry, where an entry is kept
exactly when its extracted text is non-empty; the reported success count
is the number of kept entries. -/
theorem C2_aggregation (pairs : List (SearchResult × String))
    (h : ∀ p ∈ pairs, p.1.url.getD "" = "" → p.2 = "") :
    (aggregate pairs).1
      = String.join (((pairs.take 5).filter fun p => decide (¬ p.2 = "")).map blockOf)
    ∧ (aggregate pairs).2
      = ((pairs.take 5).filter fun p => decide (¬ p.2 = "")).length := by
  have h5 : ∀ p ∈ pairs.take 5, p.1.url.getD "" = "" → p.2 = "" :=
    fun p hp => h p (List.take_subset 5 pairs hp)
  have hfold := aggregate_foldl (pairs.take 5) "" 0 h5
  unfold aggregate
  rw [hfold]
  exact ⟨by rw [String.empty_append], by simp⟩

/-- Three concrete search results with their extracted texts: one kept,
one with a missing url (never extracted), one whose extraction failed. -/
def pairsC2 : List (SearchResult × String) :=
  [(⟨some "T1", some "u1"⟩, "c1"), (⟨some "T2", none⟩, ""), (⟨none, some "u3"⟩, "")]

/-- Witness for C2 at the concrete pair list. -/
theorem C2_witness :
    pairsC2.all (fun p => decide (p.1.url.getD "" = "" → p.2 = "")) = true
    ∧ (aggregate pairsC2).1
      = String.join (((pairsC2.take 5).filter fun p => decide (¬ p.2 = "")).map blockOf)
    ∧ (aggregate pairsC2).2
      = ((pairsC2.take 5).filter fun p => decide (¬ p.2 = "")).length :=
  ⟨by decide,
   (C2_aggregation pairsC2 (by decide)).1,
   (C2_aggregation pairsC2 (by decide)).2⟩

theorem extractLoaded_fail (env : Env) (d : Drv) (url : String) (m : Nat)
    (h : (match env.pages url with
          | .navError => true
          | .waitTimeout => true
          | .page p => (selectContent p).isNone) = true) :
    (extractLoaded env d url m).1 = "" := by
  unfold extractLoaded
  cases hpg : env.pages url with
  | navError => rfl
  | waitTimeout => rfl
  | page p =>
    rw [hpg] at h
    have h2 : selectContent p = none := by simpa using h
    show (match selectContent p with
          | none => ("", d, [Event.warnExtract url])
          | some content => (clean_and_limit content m, d, [])).1 = ""
    rw [h2]

/-- Claim C4: on any extraction failure (driver setup failure, navigation
or readiness-wait failure, or the None content that makes re.sub raise)
the operation returns the empty string, raising nothing to its caller (it
is total); and whatever the environment does, the loop still performs one
extraction attempt per remaining result with a non-empty url, so a failed
extraction never aborts the run. -/
theorem C4_extract_failures :
    (∀ (env : Env) (d : Drv) (url : String) (m : Nat),
      extractFails env d url = true →
      (extract_content_selenium env d url m).1 = "")
    ∧ (∀ (env : Env) (s : LoopSt) (rs : List SearchResult),
      extractCallsOf (runLoop env s rs).evs
        = extractCallsOf s.evs ++ rs.filterMap urlOpt) := by
  refine ⟨?_, fun env s rs => runLoop_calls env rs s⟩
  intro env d url m h
  unfold extractFails at h
  unfold extract_content_selenium
  by_cases hp : d.present = true
  · rw [if_pos hp]
    have hcond : (d.present || env.setupOk d.attempts) = true := by simp [hp]
    rw [if_pos hcond] at h
    exact extractLoaded_fail env d url m h
  · rw [if_neg hp]
    by_cases hsu : env.setupOk d.attempts = true
    · rw [if_pos hsu]
      have hcond : (d.present || env.setupOk d.attempts) = true := by simp [hsu]
      rw [if_pos hcond] at h
      exact extractLoaded_fail env ⟨true, d.attempts + 1⟩ url m h
    · rw [if_neg hsu]

/-- Witness for C4: with driver setup failing, the extraction returns the
empty string. -/
theorem C4_witness :
    extractFails envNoKeys ⟨false, 0⟩ "u" = true
    ∧ (extract_content_selenium envNoKeys ⟨false, 0⟩ "u" 5000).1 = "" :=
  ⟨by decide, C4_extract_failures.1 envNoKeys ⟨false, 0⟩ "u" 5000 (by decide)⟩

/-- Claim C10: a search result whose url key is missing or empty is
skipped entirely (the loop state, including the aggregate, the count, the
driver and the event log, is unchanged, so nothing is reported for it),
and every url ever passed to the extraction operation is non-empty. -/
theorem C10_skip_missing_url :
    (∀ (env : Env) (s : LoopSt) (r : SearchResult),
      r.url.getD "" = "" → loopBody env s r = s)
    ∧ (∀ (env : Env) (s : LoopSt) (rs : List SearchResult),
      extractCallsOf (runLoop env s rs).evs
        = extractCallsOf s.evs ++ rs.filterMap urlOpt)
    ∧ (∀ (env : Env) (rs : List SearchResult) (u : String),
      u ∈ extractCallsOf (runLoop env ⟨⟨false, 0⟩, "", 0, []⟩ rs).evs →
      ¬ u = "") := by
  refine ⟨loopBody_skip, fun env s rs => runLoop_calls env rs s, ?_⟩
  intro env rs u hu
  rw [runLoop_calls env rs _] at hu
  have hu2 : u ∈ rs.filterMap urlOpt := by
    simpa [extractCallsOf] using hu
  obtain ⟨r, hr, hmap⟩ := List.mem_filterMap.mp hu2
  unfold urlOpt at hmap
  by_cases hc : r.url.getD "" = ""
  · rw [if_pos hc] at hmap
    exact absurd hmap (by simp)
  · rw [if_neg hc] at hmap
    have h2 : r.url.getD "" = u := by simpa using hmap
    rw [← h2]
    exact hc

/-- Witness for C10: a result with a missing url leaves the loop state
untouched. -/
theorem C10_witness :
    (SearchResult.mk (some "T") none).url.getD "" = ""
    ∧ loopBody envC3 ⟨⟨false, 0⟩, "", 0, []⟩ ⟨some "T", none⟩
      = ⟨⟨false, 0⟩, "", 0, []⟩ :=
  ⟨by decide,
   C10_skip_missing_url.1 envC3 ⟨⟨false, 0⟩, "", 0, []⟩ ⟨some "T", none⟩ (by decide)⟩

/-- Claim C1: whenever the loop over the top five results counts zero
successful extractions, the run reports the zero-extractions diagnostic,
never invokes the policy-generation operation, and leaves the session (the
wizard step and the stored policy) unchanged. -/
theorem C1_zero_extractions_halt (env : Env) (s0 : Session)
    (rs : List SearchResult) (evs : List Event)
    (h1 : search_tavily env s0.policy_type s0.location = (.ok rs, evs))
    (h2 : ¬ rs = [])
    (h3 : (runLoop env ⟨⟨false, 0⟩, "", 0, []⟩ (rs.take 5)).cnt = 0) :
    Event.genInvoked ∉ (researchRun env s0).events
    ∧ Event.errNoExtract ∈ (researchRun env s0).events
    ∧ (researchRun env s0).session = s0 := by
  have hcore := core_eq_ok env s0 rs evs h1
  rw [if_neg (by simp [h2])] at hcore
  have hafter : coreAfterLoop env s0
      (evs ++ [Event.foundSources rs.length]
        ++ (runLoop env ⟨⟨false, 0⟩, "", 0, []⟩ (rs.take 5)).evs)
      (runLoop env ⟨⟨false, 0⟩, "", 0, []⟩ (rs.take 5))
      = (s0,
         evs ++ [Event.foundSources rs.length]
           ++ (runLoop env ⟨⟨false, 0⟩, "", 0, []⟩ (rs.take 5)).evs
           ++ [Event.errNoExtract],
         (runLoop env ⟨⟨false, 0⟩, "", 0, []⟩ (rs.take 5)).drv.present) := by
    unfold coreAfterLoop
    rw [if_pos h3]
  rw [hafter] at hcore
  have hev : (researchRun env s0).events
      = (evs ++ [Event.foundSources rs.length]
          ++ (runLoop env ⟨⟨false, 0⟩, "", 0, []⟩ (rs.take 5)).evs
          ++ [Event.errNoExtract])
        ++ cleanupEvents (runLoop env ⟨⟨false, 0⟩, "", 0, []⟩ (rs.take 5)).drv.present := by
    show (researchRunCore env s0).2.1
        ++ cleanupEvents (researchRunCore env s0).2.2 = _
    rw [hcore]
  refine ⟨?_, ?_, ?_⟩
  · intro hmem
    rw [hev] at hmem
    rcases List.mem_append.mp hmem with hm | hm
    · rcases List.mem_append.mp hm with hm2 | hm2
      · rcases List.mem_append.mp hm2 with hm3 | hm3
        · rcases List.mem_append.mp hm3 with hm4 | hm4
          · rcases search_tavily_events env s0.policy_type s0.location _
              (by rw [h1]; exact hm4) with h5 | h5 | h5 <;> simp at h5
          · simp at hm4
        · rcases runLoop_init_events env (rs.take 5) _ hm3 with ⟨u, h5⟩ | ⟨u, h5⟩ | h5
            <;> simp at h5
      · simp at hm2
    · rcases hb : (runLoop env ⟨⟨false, 0⟩, "", 0, []⟩ (rs.take 5)).drv.present
        <;> rw [hb] at hm <;> simp [cleanupEvents] at hm
  · rw [hev]
    simp [List.mem_append]
  · show (researchRunCore env s0).1 = s0
    rw [hcore]

def resC1 : SearchResult := ⟨some "T", some "u"⟩

/-- Environment for the C1 and C9 witnesses: the search returns one
result, the driver starts, and every page navigation fails, so zero
extractions succeed. -/
def envC1 : Env :=
  { tavilyKey := some "k", geminiKey := some "k",
    search := .respJson (.jobj (some [resC1])),
    pages := fun _ => .navError,
    setupOk := fun _ => true,
    gen := .genOk "policy",
    monthYear := "M" }

def sess0 : Session := ⟨3, "PT", "Loc", ""⟩

/-- Witness for C1 at a concrete run with one result whose extraction
fails. -/
theorem C1_witness :
    search_tavily envC1 sess0.policy_type sess0.location
      = (.ok [resC1],
         [.tavilySvcCall (enhanced_query sess0.policy_type sess0.location)])
    ∧ ¬ [resC1] = ([] : List SearchResult)
    ∧ (runLoop envC1 ⟨⟨false, 0⟩, "", 0, []⟩ ([resC1].take 5)).cnt = 0
    ∧ Event.genInvoked ∉ (researchRun envC1 sess0).events :=
  ⟨rfl, by decide, by decide,
   (C1_zero_extractions_halt envC1 sess0 [resC1]
     [.tavilySvcCall (enhanced_query sess0.policy_type sess0.location)]
     rfl (by decide) (by decide)).1⟩

theorem core_genfail (env : Env) (s0 : Session) (h : genEmptyResult env = true) :
    (researchRunCore env s0).1 = s0
    ∧ (Event.genInvoked ∈ (researchRunCore env s0).2.1 →
       Event.errGenFailedMain ∈ (researchRunCore env s0).2.1) := by
  rcases hs : search_tavily env s0.policy_type s0.location with ⟨res, evs⟩
  cases res with
  | error err =>
    rw [core_eq_error env s0 err evs hs]
    refine ⟨rfl, ?_⟩
    intro hg
    exfalso
    rcases List.mem_append.mp hg with h3 | h3
    · rcases search_tavily_events env s0.policy_type s0.location _
        (by rw [hs]; exact h3) with h4 | h4 | h4 <;> simp at h4
    · simp at h3
  | ok rs =>
    rw [core_eq_ok env s0 rs evs hs]
    by_cases hb : rs.isEmpty = true
    · rw [if_pos hb]
      refine ⟨rfl, ?_⟩
      intro hg
      exfalso
      rcases List.mem_append.mp hg with h3 | h3
      · rcases search_tavily_events env s0.policy_type s0.location _
          (by rw [hs]; exact h3) with h4 | h4 | h4 <;> simp at h4
      · simp at h3
    · rw [if_neg hb]
      unfold coreAfterLoop
      by_cases hc : (runLoop env ⟨⟨false, 0⟩, "", 0, []⟩ (rs.take 5)).cnt = 0
      · rw [if_pos hc]
        refine ⟨rfl, ?_⟩
        intro hg
        exfalso
        rcases List.mem_append.mp hg with h3 | h3
        · rcases List.mem_append.mp h3 with h4 | h4
          · rcases List.mem_append.mp h4 with h5 | h5
            · rcases search_tavily_events env s0.policy_type s0.location _
                (by rw [hs]; exact h5) with h6 | h6 | h6 <;> simp at h6
            · simp at h5
          · rcases runLoop_init_events env (rs.take 5) _ h4 with ⟨u, h5⟩ | ⟨u, h5⟩ | h5
              <;> simp at h5
        · simp at h3
      · rw [if_neg hc]
        rw [if_pos (gen_result_empty env s0.policy_type s0.location _ h)]
        refine ⟨rfl, ?_⟩
        intro _
        simp [List.mem_append]

/-- Claim C8: the synthesizer returns the empty string on a falsy
credential (with no service call) and on any exception from the service,
each with a diagnostic; and whenever the generation stage yields the
empty string, the pipeline reports the failure and does not advance (the
session, so the wizard step and the stored policy, is unchanged). -/
theorem C8_generation_failure (env : Env) (pt loc ctx : String) (s0 : Session) :
    (pyFalsyKey env.geminiKey = true →
      generate_policy_with_gemini env pt loc ctx = ("", [.errNoGeminiKey]))
    ∧ (pyFalsyKey env.geminiKey = false → env.gen = .genRaise →
      generate_policy_with_gemini env pt loc ctx
        = ("", [.geminiSvcCall (geminiPrompt pt loc ctx env.monthYear), .errGemini]))
    ∧ (genEmptyResult env = true →
      (generate_policy_with_gemini env pt loc ctx).1 = "")
    ∧ (genEmptyResult env = true →
      (researchRun env s0).session = s0
      ∧ (Event.genInvoked ∈ (researchRun env s0).events →
         Event.errGenFailedMain ∈ (researchRun env s0).events)) := by
  refine ⟨?_, ?_, gen_result_empty env pt loc ctx, ?_⟩
  · intro h
    unfold generate_policy_with_gemini
    rw [if_pos h]
  · intro hk hg
    unfold generate_policy_with_gemini
    rw [if_neg (by simp [hk]), hg]
  · intro h
    have hcore := core_genfail env s0 h
    refine ⟨hcore.1, ?_⟩
    intro hg
    have hg2 : Event.genInvoked ∈ (researchRunCore env s0).2.1 := by
      rcases List.mem_append.mp hg with hm | hm
      · exact hm
      · exfalso
        rcases hb : (researchRunCore env s0).2.2
          <;> rw [hb] at hm <;> simp [cleanupEvents] at hm
    exact List.mem_append.mpr (.inl (hcore.2 hg2))

/-- Environment for the C8 witness: credentials present but the
generation service raises. -/
def envC8 : Env :=
  { tavilyKey := some "k", geminiKey := some "k",
    search := .respJson (.jobj (some [resC1])),
    pages := fun _ => .navError,
    setupOk := fun _ => true,
    gen := .genRaise,
    monthYear := "M" }

/-- Witness for C8: the raising service yields the empty string and the
run leaves the session unchanged. -/
theorem C8_witness :
    pyFalsyKey envC8.geminiKey = false
    ∧ genEmptyResult envC8 = true
    ∧ generate_policy_with_gemini envC8 "PT" "Loc" "CTX"
      = ("", [.geminiSvcCall (geminiPrompt "PT" "Loc" "CTX" envC8.monthYear), .errGemini])
    ∧ (researchRun envC8 sess0).session = sess0 :=
  ⟨by decide, by decide,
   (C8_generation_failure envC8 "PT" "Loc" "CTX" sess0).2.1 (by decide) rfl,
   ((C8_generation_failure envC8 "PT" "Loc" "CTX" sess0).2.2.2 (by decide)).1⟩

/-- Claim C9: in every run the cleanup operation runs exactly once (the
finally clause), and whenever a browser session was created during the
run, its quit operation is called. -/
theorem C9_session_cleanup (env : Env) (s0 : Session) :
    (researchRun env s0).events.countP (fun e => decide (e = Event.cleanupCall)) = 1
    ∧ ((researchRun env s0).driverCreated = true →
       Event.quitCall ∈ (researchRun env s0).events) := by
  constructor
  · show ((researchRunCore env s0).2.1
        ++ cleanupEvents (researchRunCore env s0).2.2).countP _ = 1
    rw [List.countP_append]
    have h0 : (researchRunCore env s0).2.1.countP
        (fun e => decide (e = Event.cleanupCall)) = 0 := by
      rw [List.countP_eq_zero]
      intro a ha hc
      have h2 := core_safe env s0 a ha
      rw [of_decide_eq_true hc] at h2
      simp [notCleanupEvent] at h2
    rw [h0]
    rcases hb : (researchRunCore env s0).2.2 <;> decide
  · intro hd
    show Event.quitCall ∈ (researchRunCore env s0).2.1
        ++ cleanupEvents (researchRunCore env s0).2.2
    refine List.mem_append.mpr (.inr ?_)
    rw [show (researchRunCore env s0).2.2 = true from hd]
    decide

/-- Witness for C9: in the concrete failing run of envC1 a session was
created, cleanup ran once and quit was called. -/
theorem C9_witness :
    (researchRun envC1 sess0).events.countP
      (fun e => decide (e = Event.cleanupCall)) = 1
    ∧ Event.quitCall ∈ (researchRun envC1 sess0).events :=
  ⟨(C9_session_cleanup envC1 sess0).1,
   (C9_session_cleanup envC1 sess0).2 (by decide)⟩
